import Mathlib

/-!
# ewfmount and the libewf offset table

A shallow embedding of `ewftools/ewfmount.c` (the signal handler and the four
FUSE callbacks) and of the offset table declared in `libewf_offset_table.h`.

The callbacks talk to collaborators whose code is outside the two source
files (the mount handle, the directory filler, `memory_set`, the process
credentials).  Their behaviour is a parameter: a `World σ` gives, for a hidden
collaborator state `σ`, the result of every call.  Every call made is appended
to a trace, so that statements about which calls are made, and in which order,
are statements about that trace.
-/

namespace Ewfmount

/-! ## Constants of the platform headers -/

/-- The errno value EINVAL of errno.h (Linux numbering). -/
def EINVAL : Int := 22
/-- The errno value ENOENT of errno.h (Linux numbering). -/
def ENOENT : Int := 2
/-- The errno value EACCES of errno.h (Linux numbering). -/
def EACCES : Int := 13
/-- The errno value EIO of errno.h (Linux numbering). -/
def EIO : Int := 5
/-- The errno value EBADFD of errno.h (Linux numbering). -/
def EBADFD : Int := 77
/-- The errno value ERANGE of errno.h (Linux numbering). -/
def ERANGE : Int := 34

/-- The largest value of the C type int (32 bits). -/
def INT_MAX : Int := 2147483647
/-- The largest value of uint32_t. -/
def UINT32_MAX : Nat := 4294967295
/-- The access mode O_RDONLY of fcntl.h. -/
def O_RDONLY : Int := 0
/-- The whence value SEEK_SET of stdio.h. -/
def SEEK_SET : Int := 0
/-- The file type bits of a regular file, sys/stat.h. -/
def S_IFREG : Nat := 0o100000
/-- The file type bits of a directory, sys/stat.h. -/
def S_IFDIR : Nat := 0o040000

/-- The conversion of an integer value to a signed type of `bits` bits:
the value is reduced modulo `2 ^ bits` into `[-2 ^ (bits - 1), 2 ^ (bits - 1))`. -/
def signed_cast (bits : Nat) (v : Int) : Int :=
  (v + 2 ^ (bits - 1)) % 2 ^ bits - 2 ^ (bits - 1)

/-- The cast `(int) v`. -/
def int_cast (v : Int) : Int := signed_cast 32 v

/-- The two values of SIZEOF_OFF_T that the source accepts
(`#error` for any other). -/
inductive SizeofOffT where
  | four
  | eight
  deriving DecidableEq, Repr

/-- The number of bytes of off_t. -/
def SizeofOffT.bytes : SizeofOffT → Nat
  | .four => 4
  | .eight => 8

/-- The cast `(off_t) v`. -/
def off_t_cast (w : SizeofOffT) (v : Int) : Int := signed_cast (8 * w.bytes) v

/-! ## Strings -/

/-- A C string: the characters before the terminating NUL. -/
abbrev CString := List Char

/-- The macro libcstring_narrow_string_length (strlen). -/
def libcstring_narrow_string_length (s : CString) : Nat := s.length

/-- The macro libcstring_narrow_string_compare of libcstring.h, which is not
among the source files: the bounded comparison of the C library.  It compares
at most `n` characters, the end of a string counting as the character 0, and
returns 0 when they agree and the difference of the first two characters that
differ otherwise. -/
def libcstring_narrow_string_compare : CString → CString → Nat → Int
  | _, _, 0 => 0
  | [], [], _ + 1 => 0
  | [], b :: _, _ + 1 => - (b.toNat : Int)
  | a :: _, [], _ + 1 => (a.toNat : Int)
  | a :: as, b :: bs, n + 1 =>
    if a = b then libcstring_narrow_string_compare as bs n
    else (a.toNat : Int) - (b.toNat : Int)

/-- The static ewfmount_fuse_path. -/
def ewfmount_fuse_path : CString := ['/', 'e', 'w', 'f', '1']

/-- The static ewfmount_fuse_path_length. -/
def ewfmount_fuse_path_length : Nat := 5

/-! ## Collaborators, calls and program state -/

/-- A pointer to a mount handle: none is NULL. -/
abbrev HandlePtr := Option Nat

/-- The struct fuse_file_info, of which the callbacks read the flags. -/
structure fuse_file_info where
  flags : Int
  deriving DecidableEq, Repr

/-- The fields of struct stat that ewfmount_fuse_getattr writes. -/
structure stat where
  st_mode : Nat
  st_nlink : Nat
  st_size : Int
  st_atime : Int
  st_mtime : Int
  st_ctime : Int
  st_uid : Nat
  st_gid : Nat
  deriving DecidableEq, Repr

/-- A call that leaves ewfmount.c, with the arguments that the caller chooses. -/
inductive Call where
  | mount_handle_seek_offset (handle : HandlePtr) (offset : Int) (whence : Int)
  | mount_handle_read_buffer (handle : HandlePtr) (size : Nat)
  | mount_handle_get_media_size (handle : HandlePtr)
  | mount_handle_signal_abort (handle : HandlePtr)
  | libsystem_file_io_close (descriptor : Int)
  | filler (name : CString)
  deriving DecidableEq, Repr

/-- The behaviour of the collaborators over their own state `σ`.  Each
function gives the value that the call returns and the state it leaves. -/
structure World (σ : Type) where
  /-- Returns the resulting offset, or -1 on error. -/
  mount_handle_seek_offset : σ → HandlePtr → Int → Int → Int × σ
  /-- Returns the number of bytes read (an ssize_t), or -1 on error. -/
  mount_handle_read_buffer : σ → HandlePtr → Nat → Int × σ
  /-- Returns 1 if successful, and the size64_t value stored in media_size. -/
  mount_handle_get_media_size : σ → HandlePtr → Int × Nat × σ
  /-- Returns 1 if successful. -/
  mount_handle_signal_abort : σ → HandlePtr → Int × σ
  /-- Returns 0 if successful. -/
  libsystem_file_io_close : σ → Int → Int × σ
  /-- Whether memory_set returns its buffer (true) or NULL (false). -/
  memory_set_ok : σ → Bool
  /-- The value of errno after a failed memory_set. -/
  errno : σ → Int
  geteuid : σ → Nat
  getegid : σ → Nat

/-- The globals of ewfmount.c, the state of the collaborators, and the calls
made so far (oldest first). -/
structure State (σ : Type) where
  ewfmount_mount_handle : HandlePtr
  ewfmount_abort : Int
  ext : σ
  trace : List Call

/-- The state after a call: the collaborators' new state, the call recorded. -/
def State.after {σ : Type} (s : State σ) (c : Call) (ext : σ) : State σ :=
  { s with ext := ext, trace := s.trace ++ [c] }

/-! ## ewfmount.c -/

/-- The function ewfmount_signal_handler.  The notify output of the two
failure branches is not part of the state. -/
def ewfmount_signal_handler {σ : Type} (w : World σ) (s : State σ) : State σ :=
  let s1 : State σ := { s with ewfmount_abort := 1 }
  let s2 : State σ :=
    match s1.ewfmount_mount_handle with
    | some h =>
      let r := w.mount_handle_signal_abort s1.ext (some h)
      s1.after (.mount_handle_signal_abort (some h)) r.2
    | none => s1
  let c := w.libsystem_file_io_close s2.ext 0
  s2.after (.libsystem_file_io_close 0) c.2

/-- The function ewfmount_fuse_open.  The block at on_error only prints and
frees the error, and returns result. -/
def ewfmount_fuse_open (path : Option CString) (file_info : Option fuse_file_info) : Int :=
  match path with
  | none => -EINVAL
  | some path =>
    match file_info with
    | none => -EINVAL
    | some file_info =>
      let path_length := libcstring_narrow_string_length path
      if path_length ≠ ewfmount_fuse_path_length
          ∨ libcstring_narrow_string_compare path ewfmount_fuse_path
              ewfmount_fuse_path_length ≠ 0 then
        -ENOENT
      else if Int.land file_info.flags 0x03 ≠ O_RDONLY then
        -EACCES
      else
        0

/-- The function ewfmount_fuse_read.  The offset, an off_t, is converted to
off64_t without change of value; the bytes that the engine stores in the
buffer are the engine's business and are not modelled. -/
def ewfmount_fuse_read {σ : Type} (w : World σ) (s : State σ) (path : Option CString)
    (size : Nat) (offset : Int) (file_info : Option fuse_file_info) : Int × State σ :=
  match path with
  | none => (-EINVAL, s)
  | some path =>
    if (size : Int) > INT_MAX then (-EINVAL, s)
    else
      match file_info with
      | none => (-EINVAL, s)
      | some _ =>
        let path_length := libcstring_narrow_string_length path
        if path_length ≠ ewfmount_fuse_path_length
            ∨ libcstring_narrow_string_compare path ewfmount_fuse_path
                ewfmount_fuse_path_length ≠ 0 then
          (-ENOENT, s)
        else
          let sk := w.mount_handle_seek_offset s.ext s.ewfmount_mount_handle offset SEEK_SET
          let s1 := s.after (.mount_handle_seek_offset s.ewfmount_mount_handle offset SEEK_SET) sk.2
          if sk.1 = -1 then (- EIO, s1)
          else
            let rd := w.mount_handle_read_buffer s1.ext s1.ewfmount_mount_handle size
            let s2 := s1.after (.mount_handle_read_buffer s1.ewfmount_mount_handle size) rd.2
            let read_count := rd.1
            if read_count = -1 then (- EIO, s2)
            else (int_cast read_count, s2)

/-- The function ewfmount_fuse_readdir.  The filler acts on the collaborators'
state (its buffer) and returns an int; the block under `#ifdef X` is not
compiled. -/
def ewfmount_fuse_readdir {σ : Type} (s : State σ) (path : Option CString)
    (filler : σ → CString → Int × σ) : Int × State σ :=
  match path with
  | none => (-EINVAL, s)
  | some path =>
    let path_length := libcstring_narrow_string_length path
    if path_length ≠ 1 ∨ path.head? ≠ some '/' then (-ENOENT, s)
    else
      let f1 := filler s.ext ['.']
      let s1 := s.after (.filler ['.']) f1.2
      if f1.1 = 1 then (- EIO, s1)
      else
        let f2 := filler s1.ext ['.', '.']
        let s2 := s1.after (.filler ['.', '.']) f2.2
        if f2.1 = 1 then (- EIO, s2)
        else
          let f3 := filler s2.ext (ewfmount_fuse_path.drop 1)
          let s3 := s2.after (.filler (ewfmount_fuse_path.drop 1)) f3.2
          if f3.1 = 1 then (- EIO, s3)
          else (0, s3)

/-- The struct stat after `memory_set( stat_info, 0, sizeof( struct stat ) )`. -/
def stat.zero : stat :=
  { st_mode := 0, st_nlink := 0, st_size := 0, st_atime := 0, st_mtime := 0,
    st_ctime := 0, st_uid := 0, st_gid := 0 }

/-- The tail of ewfmount_fuse_getattr under `if( result == 0 )`. -/
def getattr_finish {σ : Type} (w : World σ) (s : State σ) (result : Int) (st : stat) :
    Int × Option stat × State σ :=
  if result = 0 then
    (result, some { st with st_atime := 0, st_mtime := 0, st_ctime := 0,
                            st_uid := w.geteuid s.ext, st_gid := w.getegid s.ext }, s)
  else (result, some st, s)

/-- The function ewfmount_fuse_getattr, for the off_t width `ow`.  The second
component is the struct that stat_info points to on return (none when
stat_info is NULL). -/
def ewfmount_fuse_getattr {σ : Type} (ow : SizeofOffT) (w : World σ) (s : State σ)
    (path : Option CString) (stat_info : Option stat) : Int × Option stat × State σ :=
  match path with
  | none => (-EINVAL, stat_info, s)
  | some path =>
    match stat_info with
    | none => (-EINVAL, none, s)
    | some st0 =>
      if w.memory_set_ok s.ext = false then (w.errno s.ext, some st0, s)
      else
        let st := stat.zero
        let path_length := libcstring_narrow_string_length path
        if path_length = 1 then
          if path.head? = some '/' then
            getattr_finish w s 0 { st with st_mode := S_IFDIR ||| 0o755, st_nlink := 2 }
          else getattr_finish w s (-ENOENT) st
        else if path_length = ewfmount_fuse_path_length then
          if libcstring_narrow_string_compare path ewfmount_fuse_path
              ewfmount_fuse_path_length = 0 then
            let st1 := { st with st_mode := S_IFREG ||| 0o444, st_nlink := 1 }
            let ms := w.mount_handle_get_media_size s.ext s.ewfmount_mount_handle
            let s1 := s.after (.mount_handle_get_media_size s.ewfmount_mount_handle) ms.2.2
            let media_size := ms.2.1
            if ms.1 ≠ 1 then (-EBADFD, some st1, s1)
            else if ow = .four ∧ media_size > UINT32_MAX then (-ERANGE, some st1, s1)
            else
              getattr_finish w s1 0 { st1 with st_size := off_t_cast ow (media_size : Int) }
          else getattr_finish w s (-ENOENT) st
        else getattr_finish w s (-ENOENT) st

/-- The struct libewf_offset_table: the amount of chunks in the table (the
number of slots of each array), the last chunk that was defined, and the four
dynamic arrays of file descriptors (int), compressed flags (uint8_t), offsets
and sizes (uint64_t). -/
structure libewf_offset_table where
  amount : Nat
  last : Nat
  file_descriptor : List Int
  compressed : List Nat
  offset : List Nat
  size : List Nat
  deriving DecidableEq, Repr

/-- Each of the four arrays of the table has `amount` slots. -/
def libewf_offset_table.WellFormed (t : libewf_offset_table) : Prop :=
  t.file_descriptor.length = t.amount ∧ t.compressed.length = t.amount
    ∧ t.offset.length = t.amount ∧ t.size.length = t.amount

instance (t : libewf_offset_table) : Decidable t.WellFormed := by
  unfold libewf_offset_table.WellFormed
  infer_instance

/-- Modelled from the spec: the error taxonomy of section 7, for the parts of
the library that are not among the source files. -/
inductive EngineError where
  | InvalidArgument
  | OutOfRange
  | Unset
  | SeekFailed
  | ShortRead
  | DecompressionError
  | SizeMismatch
  | IntegrityError
  | ChunkNotFound
  | Aborted
  | AllocationError
  deriving DecidableEq, Repr

/-- Modelled from the spec: the body of libewf_offset_table_alloc is not among
the source files (only its prototype is).  A fresh table of `size` slots, all
in the zero/sentinel state, with no chunk defined. -/
def libewf_offset_table_alloc (size : Nat) : libewf_offset_table :=
  { amount := size, last := 0,
    file_descriptor := List.replicate size 0, compressed := List.replicate size 0,
    offset := List.replicate size 0, size := List.replicate size 0 }

/-- Modelled from the spec: the body of libewf_offset_table_realloc is not among
the source files (only its prototype is).  This is `grow(new_capacity)` of
section 4.1: it extends the storage to `size` slots, zero/sentinel-initializing
the new slots; it fails with InvalidArgument if `size` is not greater than the
current capacity, and with AllocationError on resource exhaustion
(`memory_available = false`). -/
def libewf_offset_table_realloc (t : libewf_offset_table) (size : Nat)
    (memory_available : Bool) : Except EngineError libewf_offset_table :=
  if size ≤ t.amount then .error .InvalidArgument
  else if memory_available = false then .error .AllocationError
  else
    .ok { amount := size, last := t.last,
          file_descriptor := t.file_descriptor ++ List.replicate (size - t.amount) 0,
          compressed := t.compressed ++ List.replicate (size - t.amount) 0,
          offset := t.offset ++ List.replicate (size - t.amount) 0,
          size := t.size ++ List.replicate (size - t.amount) 0 }

/-- Modelled from the spec: the body of libewf_offset_table_set_values is not
among the source files (only its prototype is).  This is `set(chunk_index, ...)`
of section 4.1: it populates one entry, fails with OutOfRange if the chunk
index is not below the capacity, and on success raises the count of defined
chunks to at least `chunk + 1`; overwriting is permitted. -/
def libewf_offset_table_set_values (t : libewf_offset_table) (chunk : Nat)
    (file_descriptor : Int) (compressed : Nat) (offset : Nat) (size : Nat) :
    Except EngineError libewf_offset_table :=
  if chunk ≥ t.amount then .error .OutOfRange
  else
    .ok { t with
          last := max t.last (chunk + 1),
          file_descriptor := t.file_descriptor.set chunk file_descriptor,
          compressed := t.compressed.set chunk compressed,
          offset := t.offset.set chunk offset,
          size := t.size.set chunk size }

/-- Modelled from the spec: the Chunk Entry of section 3, one slot of the four
parallel arrays read as a value. -/
structure ChunkEntry where
  segment_ref : Int
  compressed : Bool
  physical_offset : Nat
  physical_size : Nat
  deriving DecidableEq, Repr

/-- Modelled from the spec: `get(chunk_index)` of section 4.1, which has no
counterpart among the source files.  It fails with OutOfRange if the index is
not below the count of defined chunks, and with Unset if the slot is still in
the sentinel state (stored size 0: a populated entry has physical_size > 0). -/
def libewf_offset_table_get (t : libewf_offset_table) (chunk : Nat) :
    Except EngineError ChunkEntry :=
  if chunk ≥ t.last then .error .OutOfRange
  else
    match t.file_descriptor[chunk]?, t.compressed[chunk]?, t.offset[chunk]?, t.size[chunk]? with
    | some fd, some c, some o, some sz =>
      if sz = 0 then .error .Unset
      else .ok { segment_ref := fd, compressed := c ≠ 0, physical_offset := o,
                 physical_size := sz }
    | _, _, _, _ => .error .OutOfRange

/-! ## The random-access read engine (mount handle)

The mount handle functions that ewfmount.c calls are declared in mount_handle.h
and defined outside the two source files.  The definitions below follow the
design: sections 3, 4.2, 4.3 and 4.4. -/

/-- Modelled from the spec: the state of the Random-Access Read Engine, whose
definition (mount_handle.c) is not among the source files: media size, chunk
size, current logical read position, the offset table, the registry of segment
streams keyed by segment reference (each stream is its bytes), and the abort
flag. -/
structure mount_handle where
  media_size : Nat
  chunk_size : Nat
  current_position : Nat
  offset_table : libewf_offset_table
  registry : List (Int × List Nat)
  abort : Bool
  deriving DecidableEq, Repr

/-- Modelled from the spec: the two format-defined parts of the Chunk Decode
Pipeline, which the design leaves to the outer format: the inflation of
compressed bytes (none on malformed data) and the checksum validation of a
decoded chunk. -/
structure Codec where
  inflate : List Nat → Option (List Nat)
  checksum_ok : List Nat → Bool

/-- Modelled from the spec: `read_physical` of the Segment Access Layer
(section 4.2), which is not among the source files.  It seeks the stream of
`segment_ref` to `physical_offset` and reads exactly `physical_size` bytes;
it fails with SeekFailed (no such stream, or an offset past its end) or with
ShortRead (fewer bytes available than requested). -/
def read_physical (registry : List (Int × List Nat)) (segment_ref : Int)
    (physical_offset physical_size : Nat) : Except EngineError (List Nat) :=
  match registry.lookup segment_ref with
  | none => .error .SeekFailed
  | some stream =>
    if physical_offset > stream.length then .error .SeekFailed
    else if physical_offset + physical_size > stream.length then .error .ShortRead
    else .ok ((stream.drop physical_offset).take physical_size)

/-- Modelled from the spec: `decode` of the Chunk Decode Pipeline (section
4.3), which is not among the source files.  Stored bytes are copied verbatim
or inflated (DecompressionError on malformed data); a payload whose length is
not the expected logical size fails with SizeMismatch; a payload that fails
the checksum fails with IntegrityError. -/
def decode (codec : Codec) (raw_bytes : List Nat) (compressed : Bool)
    (expected_logical_size : Nat) : Except EngineError (List Nat) :=
  let inflated : Except EngineError (List Nat) :=
    if compressed then
      match codec.inflate raw_bytes with
      | none => .error .DecompressionError
      | some payload => .ok payload
    else .ok raw_bytes
  match inflated with
  | .error e => .error e
  | .ok payload =>
    if payload.length ≠ expected_logical_size then .error .SizeMismatch
    else if codec.checksum_ok payload = false then .error .IntegrityError
    else .ok payload

/-- Modelled from the spec: the logical size of chunk `chunk` of an image: the
chunk size, except for the final chunk, which may be shorter (section 3). -/
def expected_logical_size (h : mount_handle) (chunk : Nat) : Nat :=
  min h.chunk_size (h.media_size - chunk * h.chunk_size)

/-- Modelled from the spec: steps 3a to 3c of `read` (section 4.4): the Chunk
Entry is looked up in the offset table (ChunkNotFound if unset), its stored
bytes are fetched and decoded into the logical chunk payload. -/
def fetch_chunk (codec : Codec) (h : mount_handle) (chunk : Nat) :
    Except EngineError (List Nat) :=
  match libewf_offset_table_get h.offset_table chunk with
  | .error _ => .error .ChunkNotFound
  | .ok entry =>
    match read_physical h.registry entry.segment_ref entry.physical_offset
        entry.physical_size with
    | .error e => .error e
    | .ok raw_bytes => decode codec raw_bytes entry.compressed (expected_logical_size h chunk)

/-- Modelled from the spec: the outcome of `read` of section 4.4: the bytes
assembled, and the error if it failed (an Aborted read keeps the bytes copied
so far). -/
structure ReadResult where
  bytes : List Nat
  error : Option EngineError
  deriving DecidableEq, Repr

/-- Modelled from the spec: step 3d of `read` (section 4.4): the part of the
payload of chunk `chunk` that lies in the byte range [position, stop). -/
def chunk_overlap (h : mount_handle) (position stop chunk : Nat) (payload : List Nat) :
    List Nat :=
  let first_byte := max position (chunk * h.chunk_size)
  let last_byte := min stop ((chunk + 1) * h.chunk_size)
  (payload.drop (first_byte - chunk * h.chunk_size)).take (last_byte - first_byte)

/-- Modelled from the spec: step 3 of `read` (section 4.4) over the chunk
indices still to do, in ascending order: the abort flag is checked before the
work on each chunk (Aborted, with the bytes copied so far); a chunk that
cannot be fetched fails the read. -/
def read_chunks (codec : Codec) (h : mount_handle) (position stop : Nat) :
    List Nat → List Nat → ReadResult
  | [], copied => { bytes := copied, error := none }
  | chunk :: rest, copied =>
    if h.abort then { bytes := copied, error := some .Aborted }
    else
      match fetch_chunk codec h chunk with
      | .error e => { bytes := copied, error := some e }
      | .ok payload =>
        read_chunks codec h position stop rest
          (copied ++ chunk_overlap h position stop chunk payload)

/-- Modelled from the spec: `read(length)` of section 4.4, whose definition is
not among the source files.  The length is clamped to the media size (an empty
result at or past the end); the chunks from first_chunk to last_chunk are
fetched and their overlapping parts assembled; the position advances by the
number of bytes copied. -/
def mount_handle_read (codec : Codec) (h : mount_handle) (length : Nat) :
    ReadResult × mount_handle :=
  if h.current_position ≥ h.media_size then ({ bytes := [], error := none }, h)
  else
    let length := min length (h.media_size - h.current_position)
    let first_chunk := h.current_position / h.chunk_size
    let last_chunk : Int :=
      ((h.current_position : Int) + (length : Int) - 1) / (h.chunk_size : Int)
    let chunks := List.range' first_chunk (last_chunk + 1 - (first_chunk : Int)).toNat
    let result := read_chunks codec h h.current_position (h.current_position + length) chunks []
    (result, { h with current_position := h.current_position + result.bytes.length })

/-- Modelled from the spec: `seek(target_offset, whence)` of section 4.4, whose
definition is not among the source files; whence is SEEK_SET (0, Start),
SEEK_CUR (1, Current) or SEEK_END (2, End).  It fails with InvalidArgument on
another whence or a negative result; a result beyond the media size is
permitted. -/
def mount_handle_seek (h : mount_handle) (target_offset : Int) (whence : Int) :
    Except EngineError mount_handle :=
  let base : Option Int :=
    if whence = 0 then some 0
    else if whence = 1 then some (h.current_position : Int)
    else if whence = 2 then some (h.media_size : Int)
    else none
  match base with
  | none => .error .InvalidArgument
  | some b =>
    if b + target_offset < 0 then .error .InvalidArgument
    else .ok { h with current_position := (b + target_offset).toNat }

/-- Modelled from the spec: the mount handle functions called by ewfmount.c,
which are not among the source files, as the engine of section 4.4 behind the
return conventions that ewfmount.c tests: -1 from seek and read on any error
(also on a NULL handle), the new offset and the number of bytes read
otherwise; 1 from the media size query and from the abort signal. -/
def engine_world (codec : Codec) : World mount_handle where
  mount_handle_seek_offset := fun h handle offset whence =>
    match handle with
    | none => (-1, h)
    | some _ =>
      match mount_handle_seek h offset whence with
      | .error _ => (-1, h)
      | .ok h1 => ((h1.current_position : Int), h1)
  mount_handle_read_buffer := fun h handle size =>
    match handle with
    | none => (-1, h)
    | some _ =>
      match (mount_handle_read codec h size).1.error with
      | some _ => (-1, (mount_handle_read codec h size).2)
      | none => (((mount_handle_read codec h size).1.bytes.length : Int),
                 (mount_handle_read codec h size).2)
  mount_handle_get_media_size := fun h handle =>
    match handle with
    | none => (-1, 0, h)
    | some _ => (1, h.media_size, h)
  mount_handle_signal_abort := fun h handle =>
    match handle with
    | none => (-1, h)
    | some _ => (1, { h with abort := true })
  libsystem_file_io_close := fun h _ => (0, h)
  memory_set_ok := fun _ => true
  errno := fun _ => 0
  geteuid := fun _ => 0
  getegid := fun _ => 0

/-- A codec without compression support and without checksums. -/
def plain_codec : Codec :=
  { inflate := fun _ => none, checksum_ok := fun _ => true }

/-- The concrete scenario of the design (section 8): chunk size 64, media size
100, chunk 0 of 64 bytes at physical offset 10 and chunk 1 of 36 bytes at
physical offset 80 of one segment (reference 3), both uncompressed.  Byte k of
the segment is k. -/
def scenario_handle : mount_handle :=
  { media_size := 100, chunk_size := 64, current_position := 0,
    offset_table :=
      { amount := 2, last := 2, file_descriptor := [3, 3], compressed := [0, 0],
        offset := [10, 80], size := [64, 36] },
    registry := [(3, List.range 120)],
    abort := false }

/-- A program state over the engine: mount handle set, no abort. -/
def engine_state (h : mount_handle) : State mount_handle :=
  { ewfmount_mount_handle := some 1, ewfmount_abort := 0, ext := h, trace := [] }

/-! ## A small collaborator for concrete runs -/

/-- The state of the sample collaborator: a read position, a media size, and
two switches that make its read and its abort signal fail. -/
structure SampleExt where
  position : Int
  media_size : Nat
  read_fails : Bool
  signal_fails : Bool
  stdin_open : Bool
  deriving DecidableEq, Repr

/-- A collaborator for concrete runs: seek fails on a negative offset, read
returns what is left of the media up to the size asked for. -/
def sample_world : World SampleExt where
  mount_handle_seek_offset := fun e _ offset _ =>
    if offset < 0 then (-1, e) else (offset, { e with position := offset })
  mount_handle_read_buffer := fun e _ size =>
    if e.read_fails then (-1, e)
    else
      let n : Int := min (size : Int) (max 0 ((e.media_size : Int) - e.position))
      (n, { e with position := e.position + n })
  mount_handle_get_media_size := fun e h =>
    match h with
    | none => (-1, 0, e)
    | some _ => (1, e.media_size, e)
  mount_handle_signal_abort := fun e _ => if e.signal_fails then (-1, e) else (1, e)
  libsystem_file_io_close := fun e d =>
    if d = 0 ∧ e.stdin_open then (0, { e with stdin_open := false }) else (-1, e)
  memory_set_ok := fun _ => true
  errno := fun _ => 0
  geteuid := fun _ => 1000
  getegid := fun _ => 1000

/-- A state of the sample collaborator with a media of `m` bytes. -/
def sample_ext (m : Nat) : SampleExt :=
  { position := 0, media_size := m, read_fails := false, signal_fails := false,
    stdin_open := true }

/-- A program state over the sample collaborator: mount handle set, no abort. -/
def sample_state (e : SampleExt) : State SampleExt :=
  { ewfmount_mount_handle := some 1, ewfmount_abort := 0, ext := e, trace := [] }

/-- The sample collaborator with a memory_set that returns NULL and leaves the
value `e` in errno. -/
def failing_memory_set_world (e : Int) : World SampleExt :=
  { sample_world with memory_set_ok := fun _ => false, errno := fun _ => e }

/-! ## Theorems -/

/-- The comparison of the first `n` characters is 0 for two strings of length
`n` exactly when the strings are equal. -/
theorem narrow_string_compare_eq_zero_iff (a b : CString) (n : Nat)
    (ha : a.length = n) (hb : b.length = n) :
    libcstring_narrow_string_compare a b n = 0 ↔ a = b := by
  induction n generalizing a b with
  | zero =>
    have h1 : a = [] := List.length_eq_zero.mp ha
    have h2 : b = [] := List.length_eq_zero.mp hb
    subst h1; subst h2
    simp [libcstring_narrow_string_compare]
  | succ k ih =>
    cases a with
    | nil => simp at ha
    | cons x xs =>
      cases b with
      | nil => simp at hb
      | cons y ys =>
        simp only [List.length_cons, Nat.add_right_cancel_iff] at ha hb
        by_cases hxy : x = y
        · subst hxy
          simp [libcstring_narrow_string_compare, ih xs ys ha hb]
        · have hne : (x.toNat : Int) - (y.toNat : Int) ≠ 0 := by
            intro h
            apply hxy
            have h3 : x.toNat = y.toNat := by omega
            exact Char.ext (UInt32.ext (by simpa [Char.toNat] using h3))
          simp [libcstring_narrow_string_compare, hxy, hne]

/-- The path test shared by open, read and getattr rejects a path exactly
when it differs from "/ewf1". -/
theorem path_test_iff (path : CString) :
    (libcstring_narrow_string_length path ≠ ewfmount_fuse_path_length
      ∨ libcstring_narrow_string_compare path ewfmount_fuse_path
          ewfmount_fuse_path_length ≠ 0) ↔ path ≠ ['/', 'e', 'w', 'f', '1'] := by
  by_cases hl : path.length = 5
  · have h := narrow_string_compare_eq_zero_iff path ewfmount_fuse_path 5 hl rfl
    simp only [libcstring_narrow_string_length, ewfmount_fuse_path_length, hl, ne_eq,
      not_true_eq_false, false_or]
    rw [h]
    rfl
  · have hne : path ≠ ['/', 'e', 'w', 'f', '1'] := by
      intro h
      apply hl
      rw [h]
      rfl
    simp [libcstring_narrow_string_length, ewfmount_fuse_path_length, hl, hne]

/-- The cast to int keeps every value between 0 and INT_MAX. -/
theorem int_cast_of_nonneg_of_le (n : Int) (h0 : 0 ≤ n) (h1 : n ≤ INT_MAX) :
    int_cast n = n := by
  unfold int_cast signed_cast
  unfold INT_MAX at h1
  norm_num
  omega

/-- The path test of the callbacks lets "/ewf1" through. -/
theorem path_test_ewf1 :
    ¬ (libcstring_narrow_string_length ['/', 'e', 'w', 'f', '1'] ≠ ewfmount_fuse_path_length
      ∨ libcstring_narrow_string_compare ['/', 'e', 'w', 'f', '1'] ewfmount_fuse_path
          ewfmount_fuse_path_length ≠ 0) := by
  rw [path_test_iff]
  simp

/-- C1: for path "/ewf1", a non-NULL file_info and size <= INT_MAX, when the
seek does not return -1 and the read then returns n with 0 <= n <= size,
ewfmount_fuse_read makes exactly two calls, the seek to offset from the start
and then the read of size bytes on the same handle, and returns n, which the
cast to int leaves unchanged. -/
theorem fuse_read_seek_then_read {σ : Type} (w : World σ) (s : State σ) (size : Nat)
    (offset : Int) (fi : fuse_file_info) (n : Int)
    (hsize : (size : Int) ≤ INT_MAX)
    (hseek : (w.mount_handle_seek_offset s.ext s.ewfmount_mount_handle offset SEEK_SET).1 ≠ -1)
    (hread : (w.mount_handle_read_buffer
      (w.mount_handle_seek_offset s.ext s.ewfmount_mount_handle offset SEEK_SET).2
      s.ewfmount_mount_handle size).1 = n)
    (hn0 : 0 ≤ n) (hn : n ≤ (size : Int)) :
    (ewfmount_fuse_read w s (some ['/', 'e', 'w', 'f', '1']) size offset (some fi)).1 = n
    ∧ (ewfmount_fuse_read w s (some ['/', 'e', 'w', 'f', '1']) size offset (some fi)).2.trace
        = s.trace ++ [Call.mount_handle_seek_offset s.ewfmount_mount_handle offset SEEK_SET,
                      Call.mount_handle_read_buffer s.ewfmount_mount_handle size]
    ∧ int_cast n = n := by
  have hcast : int_cast n = n := int_cast_of_nonneg_of_le n hn0 (le_trans hn hsize)
  have hne : n ≠ -1 := by omega
  have hsz : ¬ (size : Int) > INT_MAX := not_lt.mpr hsize
  subst hread
  simp only [ewfmount_fuse_read, hsz, if_false, path_test_ewf1, hseek, State.after, hne, hcast,
    List.append_assoc, List.singleton_append, and_self]

/-- C1 at a concrete request: 40 bytes at offset 50 of a media of 100 bytes. -/
theorem fuse_read_seek_then_read_witness :
    (ewfmount_fuse_read sample_world (sample_state (sample_ext 100))
        (some ['/', 'e', 'w', 'f', '1']) 40 50 (some ⟨0⟩)).1 = 40
    ∧ (ewfmount_fuse_read sample_world (sample_state (sample_ext 100))
        (some ['/', 'e', 'w', 'f', '1']) 40 50 (some ⟨0⟩)).2.trace
        = (sample_state (sample_ext 100)).trace
          ++ [Call.mount_handle_seek_offset (sample_state (sample_ext 100)).ewfmount_mount_handle
                50 SEEK_SET,
              Call.mount_handle_read_buffer (sample_state (sample_ext 100)).ewfmount_mount_handle
                40]
    ∧ int_cast 40 = 40 :=
  fuse_read_seek_then_read sample_world (sample_state (sample_ext 100)) 40 50 ⟨0⟩ 40
    (by decide) (by decide) (by decide) (by decide) (by decide)

/-- C2: for path "/ewf1", a non-NULL file_info and size <= INT_MAX, when the
seek returns -1 ewfmount_fuse_read returns - EIO and its only call is the seek
(the read is not called); when the seek succeeds and the read returns -1 it
returns - EIO; in both cases the value returned is negative. -/
theorem fuse_read_engine_failure {σ : Type} (w : World σ) (s : State σ) (size : Nat)
    (offset : Int) (fi : fuse_file_info) (hsize : (size : Int) ≤ INT_MAX) :
    ((w.mount_handle_seek_offset s.ext s.ewfmount_mount_handle offset SEEK_SET).1 = -1 →
      (ewfmount_fuse_read w s (some ['/', 'e', 'w', 'f', '1']) size offset (some fi)).1 = - EIO
      ∧ (ewfmount_fuse_read w s (some ['/', 'e', 'w', 'f', '1']) size offset (some fi)).2.trace
          = s.trace ++ [Call.mount_handle_seek_offset s.ewfmount_mount_handle offset SEEK_SET]
      ∧ (ewfmount_fuse_read w s (some ['/', 'e', 'w', 'f', '1']) size offset (some fi)).1 < 0)
    ∧ ((w.mount_handle_seek_offset s.ext s.ewfmount_mount_handle offset SEEK_SET).1 ≠ -1 →
      (w.mount_handle_read_buffer
        (w.mount_handle_seek_offset s.ext s.ewfmount_mount_handle offset SEEK_SET).2
        s.ewfmount_mount_handle size).1 = -1 →
      (ewfmount_fuse_read w s (some ['/', 'e', 'w', 'f', '1']) size offset (some fi)).1 = - EIO
      ∧ (ewfmount_fuse_read w s (some ['/', 'e', 'w', 'f', '1']) size offset (some fi)).1 < 0) := by
  have hsz : ¬ (size : Int) > INT_MAX := not_lt.mpr hsize
  have hneg : - EIO < 0 := by decide
  refine ⟨fun hseek => ?_, fun hseek hread => ?_⟩
  · simp only [ewfmount_fuse_read, hsz, if_false, path_test_ewf1, hseek, State.after, if_true,
      hneg, and_self]
  · simp only [ewfmount_fuse_read, hsz, if_false, path_test_ewf1, hseek, State.after, hread,
      if_true, hneg, and_self]

/-- C2 at a concrete request: a seek to offset -1, which the sample
collaborator refuses. -/
theorem fuse_read_engine_failure_witness :
    (ewfmount_fuse_read sample_world (sample_state (sample_ext 100))
        (some ['/', 'e', 'w', 'f', '1']) 40 (-1) (some ⟨0⟩)).1 = - EIO
    ∧ (ewfmount_fuse_read sample_world (sample_state (sample_ext 100))
        (some ['/', 'e', 'w', 'f', '1']) 40 (-1) (some ⟨0⟩)).2.trace
        = (sample_state (sample_ext 100)).trace
          ++ [Call.mount_handle_seek_offset (sample_state (sample_ext 100)).ewfmount_mount_handle
                (-1) SEEK_SET]
    ∧ (ewfmount_fuse_read sample_world (sample_state (sample_ext 100))
        (some ['/', 'e', 'w', 'f', '1']) 40 (-1) (some ⟨0⟩)).1 < 0 :=
  (fuse_read_engine_failure sample_world (sample_state (sample_ext 100)) 40 (-1) ⟨0⟩
    (by decide)).1 (by decide)

/-- C7: ewfmount_fuse_open returns 0 exactly when path and file_info are not
NULL, path is "/ewf1" and the access mode (flags & 0x03) is O_RDONLY.
Otherwise it returns -EINVAL for a NULL path or file_info; else -ENOENT for a
path other than "/ewf1" (whatever the flags); else -EACCES for another access
mode. -/
theorem fuse_open_spec (path : Option CString) (file_info : Option fuse_file_info) :
    (ewfmount_fuse_open path file_info = 0 ↔
      path ≠ none ∧ file_info ≠ none ∧ path = some ['/', 'e', 'w', 'f', '1']
        ∧ ∃ fi, file_info = some fi ∧ Int.land fi.flags 0x03 = O_RDONLY)
    ∧ (path = none ∨ file_info = none → ewfmount_fuse_open path file_info = -EINVAL)
    ∧ (∀ p fi, path = some p → file_info = some fi → p ≠ ['/', 'e', 'w', 'f', '1'] →
        ewfmount_fuse_open path file_info = -ENOENT)
    ∧ (∀ fi, path = some ['/', 'e', 'w', 'f', '1'] → file_info = some fi →
        Int.land fi.flags 0x03 ≠ O_RDONLY → ewfmount_fuse_open path file_info = -EACCES) := by
  have e1 : -EINVAL ≠ 0 := by decide
  have e2 : -ENOENT ≠ 0 := by decide
  have e3 : -EACCES ≠ 0 := by decide
  cases path with
  | none => simp [ewfmount_fuse_open, e1]
  | some p =>
    cases file_info with
    | none => simp [ewfmount_fuse_open, e1]
    | some fi =>
      by_cases hp : p = ['/', 'e', 'w', 'f', '1']
      · subst hp
        by_cases hf : Int.land fi.flags 0x03 = O_RDONLY
        · simp [ewfmount_fuse_open, path_test_ewf1, hf]
        · simp [ewfmount_fuse_open, path_test_ewf1, hf, e3]
      · have ht := (path_test_iff p).mpr hp
        simp [ewfmount_fuse_open, ht, hp, e2]

/-- The proper prefix "/ewf" and the extension "/ewf12" of the image path are
refused with -ENOENT, and a read-write open of "/ewf1" with -EACCES. -/
theorem fuse_open_examples :
    ewfmount_fuse_open (some ['/', 'e', 'w', 'f']) (some ⟨0⟩) = -ENOENT
    ∧ ewfmount_fuse_open (some ['/', 'e', 'w', 'f', '1', '2']) (some ⟨0⟩) = -ENOENT
    ∧ ewfmount_fuse_open (some ['/', 'e', 'w', 'f', '1']) (some ⟨2⟩) = -EACCES
    ∧ ewfmount_fuse_open (some ['/', 'e', 'w', 'f', '1']) (some ⟨0⟩) = 0
    ∧ ewfmount_fuse_open none none = -EINVAL := by
  decide

/-- The path test of ewfmount_fuse_readdir rejects a path exactly when it
differs from "/". -/
theorem root_test_iff (path : CString) :
    (libcstring_narrow_string_length path ≠ 1 ∨ path.head? ≠ some '/') ↔ path ≠ ['/'] := by
  cases path with
  | nil => simp [libcstring_narrow_string_length]
  | cons c cs =>
    cases cs with
    | nil => simp [libcstring_narrow_string_length]
    | cons d ds => simp [libcstring_narrow_string_length]

/-- On "/ewf1", with a memory_set that returns its buffer, ewfmount_fuse_getattr
asks the mount handle for the media size and goes on from its answer. -/
theorem getattr_ewf1_eq {σ : Type} (ow : SizeofOffT) (w : World σ) (s : State σ) (st0 : stat)
    (hm : w.memory_set_ok s.ext = true) :
    ewfmount_fuse_getattr ow w s (some ['/', 'e', 'w', 'f', '1']) (some st0)
      = if (w.mount_handle_get_media_size s.ext s.ewfmount_mount_handle).1 ≠ 1 then
          (-EBADFD, some { stat.zero with st_mode := S_IFREG ||| 0o444, st_nlink := 1 },
            s.after (.mount_handle_get_media_size s.ewfmount_mount_handle)
              (w.mount_handle_get_media_size s.ext s.ewfmount_mount_handle).2.2)
        else if ow = .four
            ∧ (w.mount_handle_get_media_size s.ext s.ewfmount_mount_handle).2.1 > UINT32_MAX then
          (-ERANGE, some { stat.zero with st_mode := S_IFREG ||| 0o444, st_nlink := 1 },
            s.after (.mount_handle_get_media_size s.ewfmount_mount_handle)
              (w.mount_handle_get_media_size s.ext s.ewfmount_mount_handle).2.2)
        else
          getattr_finish w
            (s.after (.mount_handle_get_media_size s.ewfmount_mount_handle)
              (w.mount_handle_get_media_size s.ext s.ewfmount_mount_handle).2.2) 0
            { stat.zero with
              st_mode := S_IFREG ||| 0o444, st_nlink := 1,
              st_size := off_t_cast ow
                ((w.mount_handle_get_media_size s.ext s.ewfmount_mount_handle).2.1 : Int) } := by
  have h5 : libcstring_narrow_string_length ['/', 'e', 'w', 'f', '1'] ≠ 1 := by decide
  have h6 : libcstring_narrow_string_length ['/', 'e', 'w', 'f', '1']
      = ewfmount_fuse_path_length := by decide
  have h7 : libcstring_narrow_string_compare ['/', 'e', 'w', 'f', '1'] ewfmount_fuse_path
      ewfmount_fuse_path_length = 0 := by decide
  simp only [ewfmount_fuse_getattr, hm, h5, h6, h7, if_false, if_true]
  rfl

/-- The conversion to off_t keeps every value from 0 to the largest off_t. -/
theorem off_t_cast_of_fits (ow : SizeofOffT) (m : Nat)
    (h : (m : Int) < 2 ^ (8 * ow.bytes - 1)) : off_t_cast ow (m : Int) = (m : Int) := by
  cases ow with
  | four =>
    simp only [SizeofOffT.bytes] at h
    simp only [off_t_cast, signed_cast, SizeofOffT.bytes]
    norm_num at h ⊢
    omega
  | eight =>
    simp only [SizeofOffT.bytes] at h
    simp only [off_t_cast, signed_cast, SizeofOffT.bytes]
    norm_num at h ⊢
    omega

/-- C3, as the code has it: for path "/ewf1", a non-NULL stat_info and a
memory_set that returns its buffer, whenever ewfmount_fuse_getattr returns 0
and the media size m fits off_t (m < 2^31 for 4 bytes, m < 2^63 for 8 bytes),
it reports st_mode = S_IFREG | 0444, st_nlink = 1 and st_size = m, and its only
call is mount_handle_get_media_size: no seek and no read. -/
theorem fuse_getattr_image_file {σ : Type} (ow : SizeofOffT) (w : World σ) (s : State σ)
    (st0 : stat) (hm : w.memory_set_ok s.ext = true)
    (hfit : ((w.mount_handle_get_media_size s.ext s.ewfmount_mount_handle).2.1 : Int)
      < 2 ^ (8 * ow.bytes - 1))
    (hret : (ewfmount_fuse_getattr ow w s (some ['/', 'e', 'w', 'f', '1']) (some st0)).1 = 0) :
    ∃ st, (ewfmount_fuse_getattr ow w s (some ['/', 'e', 'w', 'f', '1']) (some st0)).2.1 = some st
      ∧ st.st_mode = S_IFREG ||| 0o444
      ∧ st.st_nlink = 1
      ∧ st.st_size = ((w.mount_handle_get_media_size s.ext s.ewfmount_mount_handle).2.1 : Int)
      ∧ (ewfmount_fuse_getattr ow w s (some ['/', 'e', 'w', 'f', '1']) (some st0)).2.2.trace
          = s.trace ++ [Call.mount_handle_get_media_size s.ewfmount_mount_handle] := by
  have e1 : -EBADFD ≠ 0 := by decide
  have e2 : -ERANGE ≠ 0 := by decide
  rw [getattr_ewf1_eq ow w s st0 hm] at hret ⊢
  by_cases h1 : (w.mount_handle_get_media_size s.ext s.ewfmount_mount_handle).1 ≠ 1
  · rw [if_pos h1] at hret
    exact absurd hret e1
  · rw [if_neg h1] at hret ⊢
    by_cases h2 : ow = .four
        ∧ (w.mount_handle_get_media_size s.ext s.ewfmount_mount_handle).2.1 > UINT32_MAX
    · rw [if_pos h2] at hret
      exact absurd hret e2
    · rw [if_neg h2]
      simp only [getattr_finish, if_true, State.after]
      exact ⟨_, rfl, rfl, rfl, off_t_cast_of_fits ow _ hfit, trivial⟩

/-- C3 at a concrete query: a media of 100 bytes, off_t of 4 bytes. -/
theorem fuse_getattr_image_file_witness :
    ∃ st, (ewfmount_fuse_getattr .four sample_world (sample_state (sample_ext 100))
        (some ['/', 'e', 'w', 'f', '1']) (some stat.zero)).2.1 = some st
      ∧ st.st_mode = S_IFREG ||| 0o444
      ∧ st.st_nlink = 1
      ∧ st.st_size = ((sample_world.mount_handle_get_media_size
          (sample_state (sample_ext 100)).ext
          (sample_state (sample_ext 100)).ewfmount_mount_handle).2.1 : Int)
      ∧ (ewfmount_fuse_getattr .four sample_world (sample_state (sample_ext 100))
          (some ['/', 'e', 'w', 'f', '1']) (some stat.zero)).2.2.trace
          = (sample_state (sample_ext 100)).trace
            ++ [Call.mount_handle_get_media_size
                  (sample_state (sample_ext 100)).ewfmount_mount_handle] :=
  fuse_getattr_image_file .four sample_world (sample_state (sample_ext 100)) stat.zero
    rfl (by decide) (by decide)

/-- C3 as stated fails: with an off_t of 8 bytes and a media size of 2^63, and
with an off_t of 4 bytes and a media size of 2^31 (which the test against
UINT32_MAX lets through), ewfmount_fuse_getattr returns 0 and reports a
negative st_size. -/
theorem fuse_getattr_size_wraps :
    (ewfmount_fuse_getattr .eight sample_world (sample_state (sample_ext (2 ^ 63)))
        (some ['/', 'e', 'w', 'f', '1']) (some stat.zero)).1 = 0
    ∧ ((ewfmount_fuse_getattr .eight sample_world (sample_state (sample_ext (2 ^ 63)))
        (some ['/', 'e', 'w', 'f', '1']) (some stat.zero)).2.1.map stat.st_size)
        = some (-(2 ^ 63))
    ∧ (sample_world.mount_handle_get_media_size (sample_state (sample_ext (2 ^ 63))).ext
        (sample_state (sample_ext (2 ^ 63))).ewfmount_mount_handle).2.1 = 2 ^ 63
    ∧ (ewfmount_fuse_getattr .four sample_world (sample_state (sample_ext (2 ^ 31)))
        (some ['/', 'e', 'w', 'f', '1']) (some stat.zero)).1 = 0
    ∧ ((ewfmount_fuse_getattr .four sample_world (sample_state (sample_ext (2 ^ 31)))
        (some ['/', 'e', 'w', 'f', '1']) (some stat.zero)).2.1.map stat.st_size)
        = some (-(2 ^ 31))
    ∧ (sample_world.mount_handle_get_media_size (sample_state (sample_ext (2 ^ 31))).ext
        (sample_state (sample_ext (2 ^ 31))).ewfmount_mount_handle).2.1 = 2 ^ 31 := by
  decide

/-- With a memory_set that returns its buffer, ewfmount_fuse_getattr reports
the mode of a read-only regular file for "/ewf1" and for no other path. -/
theorem getattr_mode_regular_iff {σ : Type} (ow : SizeofOffT) (w : World σ) (s : State σ)
    (st0 : stat) (p : CString) (hm : w.memory_set_ok s.ext = true) :
    (ewfmount_fuse_getattr ow w s (some p) (some st0)).2.1.map stat.st_mode
      = some (S_IFREG ||| 0o444) ↔ p = ['/', 'e', 'w', 'f', '1'] := by
  have d1 : (S_IFDIR ||| 0o755) ≠ (S_IFREG ||| 0o444) := by decide
  have d2 : (0 : Nat) ≠ (S_IFREG ||| 0o444) := by decide
  constructor
  · intro h
    by_contra hp
    have ht := (path_test_iff p).mpr hp
    simp only [libcstring_narrow_string_length, ewfmount_fuse_path_length] at ht
    simp only [ewfmount_fuse_getattr, hm, libcstring_narrow_string_length,
      ewfmount_fuse_path_length, getattr_finish, stat.zero] at h
    split_ifs at h <;> simp_all
  · intro hp
    subst hp
    rw [getattr_ewf1_eq ow w s st0 hm]
    simp only [getattr_finish, stat.zero]
    split_ifs <;> simp

/-- C8: for path "/" and a filler that never returns 1, ewfmount_fuse_readdir
calls the filler exactly three times, with ".", ".." and "ewf1" in that order,
and returns 0; "/" followed by the third name is ewfmount_fuse_path, the one
path that ewfmount_fuse_open accepts and the one path for which
ewfmount_fuse_getattr reports a regular file.  For any other non-NULL path it
returns -ENOENT and calls nothing.  When a filler call
returns 1 it returns -EIO and that call is its last. -/
theorem fuse_readdir_spec {σ : Type} (s : State σ) (filler : σ → CString → Int × σ) :
    ((∀ e name, (filler e name).1 ≠ 1) →
      (ewfmount_fuse_readdir s (some ['/']) filler).1 = 0
      ∧ (ewfmount_fuse_readdir s (some ['/']) filler).2.trace
          = s.trace ++ [Call.filler ['.'], Call.filler ['.', '.'],
                        Call.filler ['e', 'w', 'f', '1']])
    ∧ ('/' :: ['e', 'w', 'f', '1'] = ewfmount_fuse_path
      ∧ ewfmount_fuse_open (some ('/' :: ['e', 'w', 'f', '1'])) (some ⟨O_RDONLY⟩) = 0
      ∧ (∀ (p : CString) (fi : fuse_file_info),
          ewfmount_fuse_open (some p) (some fi) = 0 → p = '/' :: ['e', 'w', 'f', '1'])
      ∧ ∀ (ow : SizeofOffT) (w : World σ) (st0 : stat) (p : CString),
          w.memory_set_ok s.ext = true →
          ((ewfmount_fuse_getattr ow w s (some p) (some st0)).2.1.map stat.st_mode
              = some (S_IFREG ||| 0o444) ↔ p = '/' :: ['e', 'w', 'f', '1']))
    ∧ (∀ p : CString, p ≠ ['/'] →
        (ewfmount_fuse_readdir s (some p) filler).1 = -ENOENT
        ∧ (ewfmount_fuse_readdir s (some p) filler).2.trace = s.trace)
    ∧ ((filler s.ext ['.']).1 = 1 →
        (ewfmount_fuse_readdir s (some ['/']) filler).1 = - EIO
        ∧ (ewfmount_fuse_readdir s (some ['/']) filler).2.trace
            = s.trace ++ [Call.filler ['.']])
    ∧ ((filler s.ext ['.']).1 ≠ 1 → (filler (filler s.ext ['.']).2 ['.', '.']).1 = 1 →
        (ewfmount_fuse_readdir s (some ['/']) filler).1 = - EIO
        ∧ (ewfmount_fuse_readdir s (some ['/']) filler).2.trace
            = s.trace ++ [Call.filler ['.'], Call.filler ['.', '.']])
    ∧ ((filler s.ext ['.']).1 ≠ 1 → (filler (filler s.ext ['.']).2 ['.', '.']).1 ≠ 1 →
        (filler (filler (filler s.ext ['.']).2 ['.', '.']).2 ['e', 'w', 'f', '1']).1 = 1 →
        (ewfmount_fuse_readdir s (some ['/']) filler).1 = - EIO
        ∧ (ewfmount_fuse_readdir s (some ['/']) filler).2.trace
            = s.trace ++ [Call.filler ['.'], Call.filler ['.', '.'],
                          Call.filler ['e', 'w', 'f', '1']]) := by
  have hroot : ¬ (libcstring_narrow_string_length ['/'] ≠ 1
      ∨ (['/'] : CString).head? ≠ some '/') := by decide
  have hdrop : ewfmount_fuse_path.drop 1 = ['e', 'w', 'f', '1'] := rfl
  refine ⟨fun hf => ?_, ⟨rfl, by decide, fun p fi h0 => ?_, fun ow w st0 p hm => ?_⟩,
    fun p hp => ?_, fun h1 => ?_, fun h1 h2 => ?_, fun h1 h2 h3 => ?_⟩
  · simp only [ewfmount_fuse_readdir, hroot, if_false, hf, State.after, hdrop,
      List.append_assoc, List.singleton_append, List.cons_append, List.nil_append, and_self]
  · by_contra hp
    have ht := (path_test_iff p).mpr hp
    have e2 : -ENOENT ≠ 0 := by decide
    simp only [ewfmount_fuse_open, ht, if_true] at h0
    exact e2 h0
  · exact getattr_mode_regular_iff ow w s st0 p hm
  · have ht := (root_test_iff p).mpr hp
    simp only [ewfmount_fuse_readdir, ht, if_true, and_self]
  · simp only [ewfmount_fuse_readdir, hroot, if_false, h1, if_true, State.after, and_self]
  · simp only [ewfmount_fuse_readdir, hroot, if_false, h1, h2, if_true, State.after,
      List.append_assoc, List.singleton_append, and_self]
  · simp only [ewfmount_fuse_readdir, hroot, if_false, h1, h2, h3, if_true, State.after, hdrop,
      List.append_assoc, List.singleton_append, List.cons_append, List.nil_append, and_self]

/-- A listing of "/" with a filler that accepts every name, and one with a
filler that refuses "..": three calls and 0, two calls and -EIO. -/
theorem fuse_readdir_examples :
    (ewfmount_fuse_readdir (sample_state (sample_ext 100)) (some ['/'])
        (fun e _ => (0, e))).1 = 0
    ∧ (ewfmount_fuse_readdir (sample_state (sample_ext 100)) (some ['/'])
        (fun e _ => (0, e))).2.trace
        = [Call.filler ['.'], Call.filler ['.', '.'], Call.filler ['e', 'w', 'f', '1']]
    ∧ (ewfmount_fuse_readdir (sample_state (sample_ext 100)) (some ['/'])
        (fun e name => (if name = ['.', '.'] then 1 else 0, e))).1 = - EIO
    ∧ (ewfmount_fuse_readdir (sample_state (sample_ext 100)) (some ['/'])
        (fun e name => (if name = ['.', '.'] then 1 else 0, e))).2.trace
        = [Call.filler ['.'], Call.filler ['.', '.']]
    ∧ (ewfmount_fuse_readdir (sample_state (sample_ext 100)) (some ['/', 'e', 'w', 'f', '1'])
        (fun e _ => (0, e))).1 = -ENOENT := by
  decide

/-- The callback ewfmount_fuse_read leaves the two globals as they are. -/
theorem fuse_read_globals {σ : Type} (w : World σ) (s : State σ) (path : Option CString)
    (size : Nat) (offset : Int) (file_info : Option fuse_file_info) :
    (ewfmount_fuse_read w s path size offset file_info).2.ewfmount_abort = s.ewfmount_abort
    ∧ (ewfmount_fuse_read w s path size offset file_info).2.ewfmount_mount_handle
        = s.ewfmount_mount_handle := by
  unfold ewfmount_fuse_read
  cases path <;> cases file_info <;> simp only [State.after] <;>
    (try split_ifs) <;> simp

/-- The handler on the sample collaborator whose abort signal fails: the flag
is set, the signal is sent once, and stdin is closed all the same. -/
theorem signal_handler_examples :
    (ewfmount_signal_handler sample_world
        (sample_state { sample_ext 100 with signal_fails := true })).trace
      = [Call.mount_handle_signal_abort (some 1), Call.libsystem_file_io_close 0]
    ∧ (ewfmount_signal_handler sample_world
        (sample_state { sample_ext 100 with signal_fails := true })).ext.stdin_open = false
    ∧ (ewfmount_signal_handler sample_world
        (sample_state { sample_ext 100 with signal_fails := true })).ewfmount_abort = 1
    ∧ (ewfmount_signal_handler sample_world
        { sample_state (sample_ext 100) with ewfmount_mount_handle := none }).trace
      = [Call.libsystem_file_io_close 0] := by
  decide

/-- C4: for every offset table whose arrays have `amount` slots and every
chunk index i < amount, libewf_offset_table_set_values(table, i, ...) succeeds,
and in the table it returns entry i of the four arrays holds exactly the four
values passed. -/
theorem offset_table_set_then_read (t : libewf_offset_table) (i : Nat)
    (file_descriptor : Int) (compressed offset size : Nat)
    (hwf : t.WellFormed) (hi : i < t.amount) :
    ∃ t1, libewf_offset_table_set_values t i file_descriptor compressed offset size = .ok t1
      ∧ t1.file_descriptor[i]? = some file_descriptor
      ∧ t1.compressed[i]? = some compressed
      ∧ t1.offset[i]? = some offset
      ∧ t1.size[i]? = some size := by
  obtain ⟨h1, h2, h3, h4⟩ := hwf
  have hn : ¬ i ≥ t.amount := not_le.mpr hi
  have hset : libewf_offset_table_set_values t i file_descriptor compressed offset size
      = .ok { t with
              last := max t.last (i + 1),
              file_descriptor := t.file_descriptor.set i file_descriptor,
              compressed := t.compressed.set i compressed,
              offset := t.offset.set i offset,
              size := t.size.set i size } := by
    simp only [libewf_offset_table_set_values, hn, if_false]
  refine ⟨_, hset, ?_⟩
  simp [List.getElem?_set, h1, h2, h3, h4, hi]

/-- C4 at a concrete table: chunk 1 of a fresh table of 3 slots. -/
theorem offset_table_set_then_read_witness :
    ∃ t1, libewf_offset_table_set_values (libewf_offset_table_alloc 3) 1 7 1 80 36 = .ok t1
      ∧ t1.file_descriptor[1]? = some 7
      ∧ t1.compressed[1]? = some 1
      ∧ t1.offset[1]? = some 80
      ∧ t1.size[1]? = some 36 :=
  offset_table_set_then_read (libewf_offset_table_alloc 3) 1 7 1 80 36 (by decide) (by decide)

/-- C5: for every offset table whose arrays have c1 = `amount` slots and every
c2 > c1, a successful libewf_offset_table_realloc(table, c2) gives a table of
c2 slots in which every entry with index < c1 is unchanged in all four arrays
and every slot with index in [c1, c2) is zero in all four arrays (the unset
state). -/
theorem offset_table_realloc_frame (t t1 : libewf_offset_table) (c2 : Nat)
    (memory_available : Bool) (hwf : t.WellFormed) (hgt : c2 > t.amount)
    (hok : libewf_offset_table_realloc t c2 memory_available = .ok t1) :
    t1.amount = c2 ∧ t1.WellFormed
    ∧ (∀ i, i < t.amount →
        t1.file_descriptor[i]? = t.file_descriptor[i]?
        ∧ t1.compressed[i]? = t.compressed[i]?
        ∧ t1.offset[i]? = t.offset[i]?
        ∧ t1.size[i]? = t.size[i]?)
    ∧ (∀ i, t.amount ≤ i → i < c2 →
        t1.file_descriptor[i]? = some 0
        ∧ t1.compressed[i]? = some 0
        ∧ t1.offset[i]? = some 0
        ∧ t1.size[i]? = some 0) := by
  obtain ⟨h1, h2, h3, h4⟩ := hwf
  have hn : ¬ c2 ≤ t.amount := not_le.mpr hgt
  unfold libewf_offset_table_realloc at hok
  rw [if_neg hn] at hok
  cases memory_available with
  | false => simp at hok
  | true =>
    simp only [Bool.true_eq_false, if_false, Except.ok.injEq] at hok
    subst hok
    refine ⟨rfl, ?_, fun i hi => ?_, fun i hlo hhi => ?_⟩
    · simp only [libewf_offset_table.WellFormed, List.length_append, List.length_replicate,
        h1, h2, h3, h4]
      omega
    · simp only
      rw [List.getElem?_append_left (by omega), List.getElem?_append_left (by omega),
        List.getElem?_append_left (by omega), List.getElem?_append_left (by omega)]
      exact ⟨rfl, rfl, rfl, rfl⟩
    · simp only
      rw [List.getElem?_append_right (by omega), List.getElem?_append_right (by omega),
        List.getElem?_append_right (by omega), List.getElem?_append_right (by omega)]
      simp only [List.getElem?_replicate, h1, h2, h3, h4]
      have hlt : i - t.amount < c2 - t.amount := by omega
      simp [hlt]

/-- C5 at a concrete table: the table of the scenario image grown from 2 to 4
slots. -/
theorem offset_table_realloc_frame_witness :
    ∃ t1, libewf_offset_table_realloc scenario_handle.offset_table 4 true = .ok t1
      ∧ t1.amount = 4 ∧ t1.WellFormed
      ∧ (∀ i, i < scenario_handle.offset_table.amount →
          t1.file_descriptor[i]? = scenario_handle.offset_table.file_descriptor[i]?
          ∧ t1.compressed[i]? = scenario_handle.offset_table.compressed[i]?
          ∧ t1.offset[i]? = scenario_handle.offset_table.offset[i]?
          ∧ t1.size[i]? = scenario_handle.offset_table.size[i]?)
      ∧ (∀ i, scenario_handle.offset_table.amount ≤ i → i < 4 →
          t1.file_descriptor[i]? = some 0
          ∧ t1.compressed[i]? = some 0
          ∧ t1.offset[i]? = some 0
          ∧ t1.size[i]? = some 0) :=
  ⟨_, rfl, offset_table_realloc_frame scenario_handle.offset_table _ 4 true
    (by decide) (by decide) rfl⟩

/-- A decoded payload has the expected logical size. -/
theorem decode_length (codec : Codec) (raw_bytes : List Nat) (compressed : Bool)
    (expected : Nat) (payload : List Nat)
    (h : decode codec raw_bytes compressed expected = .ok payload) :
    payload.length = expected := by
  unfold decode at h
  cases compressed with
  | false =>
    simp only [Bool.false_eq_true, if_false] at h
    split_ifs at h with h1 h2
    · simp only [Except.ok.injEq] at h
      subst h
      exact not_not.mp h1
  | true =>
    simp only [if_true] at h
    cases hi : codec.inflate raw_bytes with
    | none => simp [hi] at h
    | some p =>
      simp only [hi] at h
      split_ifs at h with h1 h2
      · simp only [Except.ok.injEq] at h
        subst h
        exact not_not.mp h1

/-- A fetched chunk has the logical size of its index. -/
theorem fetch_chunk_length (codec : Codec) (h : mount_handle) (chunk : Nat)
    (payload : List Nat) (hf : fetch_chunk codec h chunk = .ok payload) :
    payload.length = expected_logical_size h chunk := by
  unfold fetch_chunk at hf
  cases hg : libewf_offset_table_get h.offset_table chunk with
  | error e => simp [hg] at hf
  | ok entry =>
    simp only [hg] at hf
    cases hr : read_physical h.registry entry.segment_ref entry.physical_offset
        entry.physical_size with
    | error e => simp [hr] at hf
    | ok raw =>
      simp only [hr] at hf
      exact decode_length codec raw entry.compressed _ payload hf

/-- The number of bytes that a chunk of the right logical size contributes to
the range [position, stop) of an image that holds the range. -/
theorem chunk_overlap_length (h : mount_handle) (position stop chunk : Nat)
    (payload : List Nat) (hlen : payload.length = expected_logical_size h chunk)
    (hps : position ≤ stop) (hstop : stop ≤ h.media_size) :
    (chunk_overlap h position stop chunk payload).length
      = min stop (max position ((chunk + 1) * h.chunk_size))
        - min stop (max position (chunk * h.chunk_size)) := by
  unfold expected_logical_size at hlen
  simp only [chunk_overlap, List.length_take, List.length_drop, hlen]
  have e : (chunk + 1) * h.chunk_size = chunk * h.chunk_size + h.chunk_size := by ring
  rw [e]
  omega

/-- The loop over the chunks k, ..., k + m - 1, when the abort flag is clear
and each of these chunks can be fetched, ends without error and adds to the
bytes copied the part of the range [position, stop) that these chunks hold. -/
theorem read_chunks_length (codec : Codec) (h : mount_handle) (position stop : Nat)
    (habort : h.abort = false) (hps : position ≤ stop) (hstop : stop ≤ h.media_size)
    (m : Nat) : ∀ (k : Nat) (copied : List Nat),
    (∀ i, k ≤ i → i < k + m → ∃ payload, fetch_chunk codec h i = .ok payload) →
    (read_chunks codec h position stop (List.range' k m) copied).error = none
    ∧ (read_chunks codec h position stop (List.range' k m) copied).bytes.length
        = copied.length + (min stop (max position ((k + m) * h.chunk_size))
            - min stop (max position (k * h.chunk_size))) := by
  induction m with
  | zero =>
    intro k copied _
    simp [read_chunks]
  | succ m ih =>
    intro k copied hf
    obtain ⟨payload, hp⟩ := hf k (le_refl k) (by omega)
    have hl := chunk_overlap_length h position stop k payload
      (fetch_chunk_length codec h k payload hp) hps hstop
    have hrest := ih (k + 1) (copied ++ chunk_overlap h position stop k payload)
      (fun i h1 h2 => hf i (by omega) (by omega))
    simp only [List.range'_succ, read_chunks, habort, Bool.false_eq_true, if_false, hp]
    refine ⟨hrest.1, ?_⟩
    rw [hrest.2, List.length_append, hl]
    have e1 : (k + 1 + m) * h.chunk_size = (k + (m + 1)) * h.chunk_size := by ring
    have e2 : (k + 1) * h.chunk_size = k * h.chunk_size + h.chunk_size := by ring
    have e3 : (k + (m + 1)) * h.chunk_size
        = k * h.chunk_size + h.chunk_size + m * h.chunk_size := by ring
    rw [e1, e3, e2]
    omega

/-- A read of the engine below the end of the media, with the abort flag clear
and every chunk of the image fetchable, ends without error and yields the
length asked for, clamped to what is left of the media. -/
theorem mount_handle_read_length (codec : Codec) (h : mount_handle) (length : Nat)
    (hC : 0 < h.chunk_size) (hpos : h.current_position < h.media_size)
    (habort : h.abort = false)
    (hchunks : ∀ i, i * h.chunk_size < h.media_size →
      ∃ payload, fetch_chunk codec h i = .ok payload) :
    (mount_handle_read codec h length).1.error = none
    ∧ (mount_handle_read codec h length).1.bytes.length
        = min length (h.media_size - h.current_position) := by
  have hnot : ¬ h.current_position ≥ h.media_size := not_le.mpr hpos
  have hCi : (0 : Int) < (h.chunk_size : Int) := by exact_mod_cast hC
  simp only [mount_handle_read, hnot, if_false]
  generalize hL : min length (h.media_size - h.current_position) = L
  generalize hlast :
    ((h.current_position : Int) + (L : Int) - 1) / (h.chunk_size : Int) = last
  generalize hfirst : h.current_position / h.chunk_size = first
  have hf1 : first * h.chunk_size ≤ h.current_position := by
    rw [← hfirst]
    exact Nat.div_mul_le_self _ _
  have hl1 : last * (h.chunk_size : Int) ≤ (h.current_position : Int) + (L : Int) - 1 := by
    rw [← hlast]
    exact Int.ediv_mul_le _ (ne_of_gt hCi)
  have hl2 : (h.current_position : Int) + (L : Int) - 1 < (last + 1) * (h.chunk_size : Int) := by
    rw [← hlast]
    exact Int.lt_ediv_add_one_mul_self _ hCi
  have hLS : h.current_position + L ≤ h.media_size := by omega
  have hrange : ∀ i, first ≤ i → i < first + (last + 1 - (first : Int)).toNat →
      ∃ payload, fetch_chunk codec h i = .ok payload := by
    intro i h1 h2
    apply hchunks
    have hi : (i : Int) ≤ last := by omega
    have hmul : (i : Int) * (h.chunk_size : Int) ≤ last * (h.chunk_size : Int) :=
      mul_le_mul_of_nonneg_right hi (le_of_lt hCi)
    have : ((i * h.chunk_size : Nat) : Int) < (h.media_size : Int) := by
      push_cast
      omega
    exact_mod_cast this
  have hres := read_chunks_length codec h h.current_position (h.current_position + L) habort
    (by omega) hLS (last + 1 - (first : Int)).toNat first [] hrange
  refine ⟨hres.1, ?_⟩
  rw [hres.2]
  simp only [List.length_nil, zero_add]
  by_cases hz : L = 0
  · subst hz
    omega
  · have hge : (first : Int) ≤ last := by
      rw [← hlast]
      apply (Int.le_ediv_iff_mul_le hCi).mpr
      have : ((first * h.chunk_size : Nat) : Int) ≤ (h.current_position : Int) := by
        exact_mod_cast hf1
      push_cast at this
      omega
    have hm : first + (last + 1 - (first : Int)).toNat = (last + 1).toNat := by omega
    have hbig : h.current_position + L ≤ (last + 1).toNat * h.chunk_size := by
      have h0 : (0 : Int) ≤ last + 1 := by omega
      have : ((h.current_position + L : Nat) : Int)
          ≤ (((last + 1).toNat * h.chunk_size : Nat) : Int) := by
        push_cast
        rw [Int.toNat_of_nonneg h0]
        omega
      exact_mod_cast this
    rw [hm]
    omega

/-- A seek from the start to a position that is not negative succeeds and
sets the position. -/
theorem mount_handle_seek_start (h : mount_handle) (position : Nat) :
    mount_handle_seek h (position : Int) SEEK_SET
      = .ok { h with current_position := position } := by
  have h0 : ¬ ((position : Int) < 0) := by omega
  simp only [mount_handle_seek, SEEK_SET, if_true, h0, if_false, zero_add, Int.toNat_ofNat]

/-- For path "/ewf1", a non-NULL file_info and size <= INT_MAX, when the seek
does not return -1, ewfmount_fuse_read returns -EIO for a read count of -1 and
the read count cast to int otherwise, after the seek and the read. -/
theorem fuse_read_after_seek {σ : Type} (w : World σ) (s : State σ) (size : Nat)
    (offset : Int) (fi : fuse_file_info) (hsize : (size : Int) ≤ INT_MAX)
    (hseek : (w.mount_handle_seek_offset s.ext s.ewfmount_mount_handle offset SEEK_SET).1 ≠ -1) :
    (ewfmount_fuse_read w s (some ['/', 'e', 'w', 'f', '1']) size offset (some fi)).1
      = (if (w.mount_handle_read_buffer
            (w.mount_handle_seek_offset s.ext s.ewfmount_mount_handle offset SEEK_SET).2
            s.ewfmount_mount_handle size).1 = -1 then - EIO
         else int_cast (w.mount_handle_read_buffer
            (w.mount_handle_seek_offset s.ext s.ewfmount_mount_handle offset SEEK_SET).2
            s.ewfmount_mount_handle size).1)
    ∧ (ewfmount_fuse_read w s (some ['/', 'e', 'w', 'f', '1']) size offset (some fi)).2.trace
        = s.trace ++ [Call.mount_handle_seek_offset s.ewfmount_mount_handle offset SEEK_SET,
                      Call.mount_handle_read_buffer s.ewfmount_mount_handle size] := by
  have hsz : ¬ (size : Int) > INT_MAX := not_lt.mpr hsize
  simp only [ewfmount_fuse_read, hsz, if_false, path_test_ewf1, hseek, State.after]
  split_ifs <;> simp

/-- C6, as the design has it: for an image of total logical size S and chunk
size C > 0 of which every chunk can be fetched (offset table fully populated,
stored bytes readable and decodable), with the abort flag clear, a read of len
bytes at any position 0 <= pos < S succeeds with exactly min(len, S - pos)
bytes; and through a non-NULL mount handle
ewfmount_fuse_read("/ewf1", buffer, len, pos) returns min(len, S - pos) for
every len <= INT_MAX. -/
theorem fuse_read_returns_min (codec : Codec) (s : State mount_handle) (len pos : Nat)
    (fi : fuse_file_info)
    (hC : 0 < s.ext.chunk_size) (hpos : pos < s.ext.media_size)
    (habort : s.ext.abort = false)
    (hchunks : ∀ i, i * s.ext.chunk_size < s.ext.media_size →
      ∃ payload, fetch_chunk codec s.ext i = .ok payload) :
    ((mount_handle_read codec { s.ext with current_position := pos } len).1.error = none
      ∧ (mount_handle_read codec { s.ext with current_position := pos } len).1.bytes.length
          = min len (s.ext.media_size - pos))
    ∧ (s.ewfmount_mount_handle ≠ none → (len : Int) ≤ INT_MAX →
        (ewfmount_fuse_read (engine_world codec) s (some ['/', 'e', 'w', 'f', '1']) len
          (pos : Int) (some fi)).1 = ((min len (s.ext.media_size - pos) : Nat) : Int)) := by
  have hrd := mount_handle_read_length codec { s.ext with current_position := pos } len hC hpos
    habort hchunks
  refine ⟨hrd, fun hhandle hlen => ?_⟩
  obtain ⟨p, hp⟩ := Option.ne_none_iff_exists'.mp hhandle
  have hsk : (engine_world codec).mount_handle_seek_offset s.ext s.ewfmount_mount_handle
      (pos : Int) SEEK_SET = ((pos : Int), { s.ext with current_position := pos }) := by
    simp only [engine_world, hp, mount_handle_seek_start]
  have hseek : ((engine_world codec).mount_handle_seek_offset s.ext s.ewfmount_mount_handle
      (pos : Int) SEEK_SET).1 ≠ -1 := by
    rw [hsk]
    show (pos : Int) ≠ -1
    omega
  have hrb : ((engine_world codec).mount_handle_read_buffer
      { s.ext with current_position := pos } s.ewfmount_mount_handle len).1
      = ((min len (s.ext.media_size - pos) : Nat) : Int) := by
    simp only [engine_world, hp, hrd.1]
    exact congrArg Nat.cast hrd.2
  rw [(fuse_read_after_seek (engine_world codec) s len (pos : Int) fi hlen hseek).1, hsk, hrb]
  have hne : ((min len (s.ext.media_size - pos) : Nat) : Int) ≠ -1 := by omega
  rw [if_neg hne]
  apply int_cast_of_nonneg_of_le
  · omega
  · have : ((min len (s.ext.media_size - pos) : Nat) : Int) ≤ (len : Int) := by
      exact_mod_cast Nat.min_le_left _ _
    omega

/-- Both chunks of the concrete scenario can be fetched. -/
theorem scenario_chunks (i : Nat)
    (hi : i * scenario_handle.chunk_size < scenario_handle.media_size) :
    ∃ payload, fetch_chunk plain_codec scenario_handle i = .ok payload := by
  have h2 : i < 2 := by
    simp only [scenario_handle] at hi
    omega
  interval_cases i
  · exact ⟨_, rfl⟩
  · exact ⟨_, rfl⟩

/-- C6 at the concrete scenario: 40 bytes at position 50 of the image of 100
bytes in chunks of 64. -/
theorem fuse_read_returns_min_witness :
    (ewfmount_fuse_read (engine_world plain_codec) (engine_state scenario_handle)
        (some ['/', 'e', 'w', 'f', '1']) 40 ((50 : Nat) : Int) (some ⟨0⟩)).1
      = ((min 40 ((engine_state scenario_handle).ext.media_size - 50) : Nat) : Int) :=
  (fuse_read_returns_min plain_codec (engine_state scenario_handle) 40 50 ⟨0⟩
    (by decide) (by decide) rfl scenario_chunks).2 (by decide) (by decide)

/-- C6 as stated fails: in the concrete scenario (offset table fully
populated, both chunks fetchable) with the abort flag set, a read of 40 bytes
at position 50 returns -EIO, not min(40, 100 - 50) = 40. -/
theorem fuse_read_aborted_not_min :
    (∀ i, i < 2 →
      ∃ payload, fetch_chunk plain_codec { scenario_handle with abort := true } i = .ok payload)
    ∧ (ewfmount_fuse_read (engine_world plain_codec)
        (engine_state { scenario_handle with abort := true })
        (some ['/', 'e', 'w', 'f', '1']) 40 50 (some ⟨0⟩)).1 = - EIO
    ∧ (ewfmount_fuse_read (engine_world plain_codec)
        (engine_state { scenario_handle with abort := true })
        (some ['/', 'e', 'w', 'f', '1']) 40 50 (some ⟨0⟩)).1
      ≠ ((min 40 (100 - 50) : Nat) : Int) := by
  refine ⟨fun i hi => ?_, by decide, by decide⟩
  interval_cases i
  · exact ⟨_, rfl⟩
  · exact ⟨_, rfl⟩

/-- C10, as the code has it: ewfmount_fuse_read does not single out an Aborted
failure.  For two validated requests with the same arguments, on any two
collaborators whose seek succeeds and whose read returns -1 (because the abort
flag was set, or for any other reason), the outcome is the same: the value
-EIO after the same two calls, the seek and the read, with the mount handle
pointer and the abort flag of ewfmount.c unchanged and no further call (none
that closes the session). -/
theorem fuse_read_failures_alike {σ τ : Type} (w1 : World σ) (w2 : World τ) (s1 : State σ)
    (s2 : State τ) (size : Nat) (offset : Int) (fi : fuse_file_info)
    (hsize : (size : Int) ≤ INT_MAX)
    (hptr : s1.ewfmount_mount_handle = s2.ewfmount_mount_handle)
    (hseek1 : (w1.mount_handle_seek_offset s1.ext s1.ewfmount_mount_handle offset SEEK_SET).1
      ≠ -1)
    (hseek2 : (w2.mount_handle_seek_offset s2.ext s2.ewfmount_mount_handle offset SEEK_SET).1
      ≠ -1)
    (hread1 : (w1.mount_handle_read_buffer
      (w1.mount_handle_seek_offset s1.ext s1.ewfmount_mount_handle offset SEEK_SET).2
      s1.ewfmount_mount_handle size).1 = -1)
    (hread2 : (w2.mount_handle_read_buffer
      (w2.mount_handle_seek_offset s2.ext s2.ewfmount_mount_handle offset SEEK_SET).2
      s2.ewfmount_mount_handle size).1 = -1) :
    (ewfmount_fuse_read w1 s1 (some ['/', 'e', 'w', 'f', '1']) size offset (some fi)).1 = - EIO
    ∧ (ewfmount_fuse_read w2 s2 (some ['/', 'e', 'w', 'f', '1']) size offset (some fi)).1 = - EIO
    ∧ (ewfmount_fuse_read w1 s1 (some ['/', 'e', 'w', 'f', '1']) size offset (some fi)).2.trace
        = s1.trace ++ [Call.mount_handle_seek_offset s1.ewfmount_mount_handle offset SEEK_SET,
                       Call.mount_handle_read_buffer s1.ewfmount_mount_handle size]
    ∧ (ewfmount_fuse_read w2 s2 (some ['/', 'e', 'w', 'f', '1']) size offset (some fi)).2.trace
        = s2.trace ++ [Call.mount_handle_seek_offset s1.ewfmount_mount_handle offset SEEK_SET,
                       Call.mount_handle_read_buffer s1.ewfmount_mount_handle size]
    ∧ (ewfmount_fuse_read w1 s1 (some ['/', 'e', 'w', 'f', '1']) size offset
        (some fi)).2.ewfmount_mount_handle = s1.ewfmount_mount_handle
    ∧ (ewfmount_fuse_read w2 s2 (some ['/', 'e', 'w', 'f', '1']) size offset
        (some fi)).2.ewfmount_mount_handle = s2.ewfmount_mount_handle
    ∧ (ewfmount_fuse_read w1 s1 (some ['/', 'e', 'w', 'f', '1']) size offset
        (some fi)).2.ewfmount_abort = s1.ewfmount_abort
    ∧ (ewfmount_fuse_read w2 s2 (some ['/', 'e', 'w', 'f', '1']) size offset
        (some fi)).2.ewfmount_abort = s2.ewfmount_abort := by
  have a1 := fuse_read_after_seek w1 s1 size offset fi hsize hseek1
  have a2 := fuse_read_after_seek w2 s2 size offset fi hsize hseek2
  have g1 := fuse_read_globals w1 s1 (some ['/', 'e', 'w', 'f', '1']) size offset (some fi)
  have g2 := fuse_read_globals w2 s2 (some ['/', 'e', 'w', 'f', '1']) size offset (some fi)
  rw [hread1, if_pos rfl] at a1
  rw [hread2, if_pos rfl] at a2
  have t2 := a2.2
  rw [← hptr] at t2
  exact ⟨a1.1, a2.1, a1.2, t2, g1.2, g2.2, g1.1, g2.1⟩

/-- C10 at two concrete failures of the scenario image: a read aborted by the
flag, and a read that finds no segment stream. -/
theorem fuse_read_failures_alike_witness :
    (ewfmount_fuse_read (engine_world plain_codec)
        (engine_state { scenario_handle with abort := true })
        (some ['/', 'e', 'w', 'f', '1']) 40 50 (some ⟨0⟩)).1 = - EIO
    ∧ (ewfmount_fuse_read (engine_world plain_codec)
        (engine_state { scenario_handle with registry := [] })
        (some ['/', 'e', 'w', 'f', '1']) 40 50 (some ⟨0⟩)).1 = - EIO :=
  ⟨(fuse_read_failures_alike (engine_world plain_codec) (engine_world plain_codec)
      (engine_state { scenario_handle with abort := true })
      (engine_state { scenario_handle with registry := [] }) 40 50 ⟨0⟩
      (by decide) rfl (by decide) (by decide) (by decide) (by decide)).1,
   (fuse_read_failures_alike (engine_world plain_codec) (engine_world plain_codec)
      (engine_state { scenario_handle with abort := true })
      (engine_state { scenario_handle with registry := [] }) 40 50 ⟨0⟩
      (by decide) rfl (by decide) (by decide) (by decide) (by decide)).2.1⟩

/-- C10 as stated fails: on the scenario image, a read of 40 bytes at position
50 that the engine fails with Aborted (abort flag set) and one that it fails
with SeekFailed (no segment stream, abort flag clear) give the same value
-EIO, the same two calls, and the same untouched globals of ewfmount.c: the
session is not closed in either. -/
theorem fuse_read_abort_not_distinguished :
    (mount_handle_read plain_codec
        { scenario_handle with abort := true, current_position := 50 } 40).1.error
      = some EngineError.Aborted
    ∧ (mount_handle_read plain_codec
        { scenario_handle with registry := [], current_position := 50 } 40).1.error
      = some EngineError.SeekFailed
    ∧ (ewfmount_fuse_read (engine_world plain_codec)
        (engine_state { scenario_handle with abort := true })
        (some ['/', 'e', 'w', 'f', '1']) 40 50 (some ⟨0⟩)).1
      = (ewfmount_fuse_read (engine_world plain_codec)
        (engine_state { scenario_handle with registry := [] })
        (some ['/', 'e', 'w', 'f', '1']) 40 50 (some ⟨0⟩)).1
    ∧ (ewfmount_fuse_read (engine_world plain_codec)
        (engine_state { scenario_handle with abort := true })
        (some ['/', 'e', 'w', 'f', '1']) 40 50 (some ⟨0⟩)).2.trace
      = (ewfmount_fuse_read (engine_world plain_codec)
        (engine_state { scenario_handle with registry := [] })
        (some ['/', 'e', 'w', 'f', '1']) 40 50 (some ⟨0⟩)).2.trace
    ∧ (ewfmount_fuse_read (engine_world plain_codec)
        (engine_state { scenario_handle with abort := true })
        (some ['/', 'e', 'w', 'f', '1']) 40 50 (some ⟨0⟩)).2.trace
      = [Call.mount_handle_seek_offset (some 1) 50 SEEK_SET,
         Call.mount_handle_read_buffer (some 1) 40]
    ∧ (ewfmount_fuse_read (engine_world plain_codec)
        (engine_state { scenario_handle with abort := true })
        (some ['/', 'e', 'w', 'f', '1']) 40 50 (some ⟨0⟩)).2.ewfmount_mount_handle
      = (ewfmount_fuse_read (engine_world plain_codec)
        (engine_state { scenario_handle with registry := [] })
        (some ['/', 'e', 'w', 'f', '1']) 40 50 (some ⟨0⟩)).2.ewfmount_mount_handle
    ∧ (ewfmount_fuse_read (engine_world plain_codec)
        (engine_state { scenario_handle with abort := true })
        (some ['/', 'e', 'w', 'f', '1']) 40 50 (some ⟨0⟩)).2.ewfmount_abort
      = (ewfmount_fuse_read (engine_world plain_codec)
        (engine_state { scenario_handle with registry := [] })
        (some ['/', 'e', 'w', 'f', '1']) 40 50 (some ⟨0⟩)).2.ewfmount_abort := by
  decide

/-- The values that ewfmount_fuse_open and ewfmount_fuse_readdir return are 0
or one of their negated errno values, all below 0. -/
theorem fuse_open_readdir_convention {σ : Type} (s : State σ) (path : Option CString)
    (file_info : Option fuse_file_info) (filler : σ → CString → Int × σ) :
    (ewfmount_fuse_open path file_info = 0 ∨ ewfmount_fuse_open path file_info < 0)
    ∧ ((ewfmount_fuse_readdir s path filler).1 = 0
      ∨ (ewfmount_fuse_readdir s path filler).1 < 0) := by
  have e1 : -EINVAL < 0 := by decide
  have e2 : -ENOENT < 0 := by decide
  have e3 : -EACCES < 0 := by decide
  have e4 : - EIO < 0 := by decide
  constructor
  · unfold ewfmount_fuse_open
    cases path <;> cases file_info <;> simp only <;> (try split_ifs) <;> simp [e1, e2, e3]
  · unfold ewfmount_fuse_readdir
    cases path <;> simp only <;> (try split_ifs) <;> simp [e1, e2, e4]

/-- The value that ewfmount_fuse_read returns is -EINVAL, -ENOENT or -EIO, all
below 0, or the read count of the mount handle cast to int, which is not below
0 when the read count is between 0 and INT_MAX. -/
theorem fuse_read_convention {σ : Type} (w : World σ) (s : State σ) (path : Option CString)
    (size : Nat) (offset : Int) (file_info : Option fuse_file_info) :
    (ewfmount_fuse_read w s path size offset file_info).1 = -EINVAL
    ∨ (ewfmount_fuse_read w s path size offset file_info).1 = -ENOENT
    ∨ (ewfmount_fuse_read w s path size offset file_info).1 = - EIO
    ∨ (ewfmount_fuse_read w s path size offset file_info).1
        = int_cast (w.mount_handle_read_buffer
            (w.mount_handle_seek_offset s.ext s.ewfmount_mount_handle offset SEEK_SET).2
            s.ewfmount_mount_handle size).1 := by
  unfold ewfmount_fuse_read
  cases path <;> cases file_info <;> simp only [State.after] <;> (try split_ifs) <;> simp

/-- The value that ewfmount_fuse_getattr returns when memory_set does not fail
(or an argument is NULL) is 0 or one of its negated errno values, all below 0:
also for a failing media size query (-EBADFD) and, with an off_t of 4 bytes,
for a media size above UINT32_MAX (-ERANGE). -/
theorem fuse_getattr_convention {σ : Type} (ow : SizeofOffT) (w : World σ) (s : State σ)
    (path : Option CString) (stat_info : Option stat)
    (hm : path = none ∨ stat_info = none ∨ w.memory_set_ok s.ext = true) :
    (ewfmount_fuse_getattr ow w s path stat_info).1 = 0
    ∨ (ewfmount_fuse_getattr ow w s path stat_info).1 < 0 := by
  have e1 : -EINVAL < 0 := by decide
  have e2 : -ENOENT < 0 := by decide
  have e3 : -EBADFD < 0 := by decide
  have e4 : -ERANGE < 0 := by decide
  unfold ewfmount_fuse_getattr
  cases path with
  | none => simp [e1]
  | some p =>
    cases stat_info with
    | none => simp [e1]
    | some st0 =>
      have hm1 : w.memory_set_ok s.ext = true := by simpa using hm
      simp only [hm1, getattr_finish, State.after]
      split_ifs <;> simp_all

/-- When memory_set returns NULL, ewfmount_fuse_getattr returns the value of
errno as it is, not negated. -/
theorem fuse_getattr_memory_set_null {σ : Type} (ow : SizeofOffT) (w : World σ) (s : State σ)
    (path : CString) (st0 : stat) (hm : w.memory_set_ok s.ext = false) :
    (ewfmount_fuse_getattr ow w s (some path) (some st0)).1 = w.errno s.ext := by
  simp only [ewfmount_fuse_getattr, hm, if_true]

/-- C11 fails on the code: with path "/ewf1", a non-NULL stat_info and a
memory_set that returns NULL with errno = EINVAL, ewfmount_fuse_getattr
returns 22, a positive value, where its return convention allows 0 or a
negative errno value; the struct is left as it was. -/
theorem fuse_getattr_returns_positive_errno :
    (ewfmount_fuse_getattr .eight (failing_memory_set_world EINVAL)
        (sample_state (sample_ext 100)) (some ['/', 'e', 'w', 'f', '1']) (some stat.zero)).1 = 22
    ∧ ¬ ((ewfmount_fuse_getattr .eight (failing_memory_set_world EINVAL)
          (sample_state (sample_ext 100)) (some ['/', 'e', 'w', 'f', '1']) (some stat.zero)).1 = 0
        ∨ (ewfmount_fuse_getattr .eight (failing_memory_set_world EINVAL)
          (sample_state (sample_ext 100)) (some ['/', 'e', 'w', 'f', '1']) (some stat.zero)).1 < 0)
    ∧ (ewfmount_fuse_getattr .four (failing_memory_set_world EINVAL)
        (sample_state (sample_ext 100)) (some ['/']) (some stat.zero)).1 = 22
    ∧ (ewfmount_fuse_getattr .eight (failing_memory_set_world EINVAL)
        (sample_state (sample_ext 100)) (some ['/', 'e', 'w', 'f', '1']) (some stat.zero)).2.1
        = some stat.zero := by
  decide

/-- C12, as the code has it: ewfmount_fuse_read does not clamp the size, it
rejects a size above INT_MAX.  For every request with size > INT_MAX it
returns -EINVAL (whatever the path and file_info) and makes no call at all.
For every request with path "/ewf1", a non-NULL file_info and
size <= INT_MAX: when the seek fails the seek is its only call; when the seek
succeeds the engine is asked to read exactly `size` = min(size, INT_MAX)
bytes, in the state the seek left, and the value returned is that read's
count (-EIO for -1).  For every request whatsoever, the calls made are none,
the seek, or the seek and then one read of `size` <= INT_MAX bytes, so the
length handed to mount_handle_read_buffer never exceeds INT_MAX. -/
theorem fuse_read_size_guard {σ : Type} (w : World σ) (s : State σ) (path : Option CString)
    (size : Nat) (offset : Int) (file_info : Option fuse_file_info) :
    ((size : Int) > INT_MAX →
      ewfmount_fuse_read w s path size offset file_info = (-EINVAL, s))
    ∧ (path = some ['/', 'e', 'w', 'f', '1'] → file_info ≠ none → (size : Int) ≤ INT_MAX →
        ((w.mount_handle_seek_offset s.ext s.ewfmount_mount_handle offset SEEK_SET).1 = -1 →
          (ewfmount_fuse_read w s path size offset file_info).2.trace
            = s.trace ++ [Call.mount_handle_seek_offset s.ewfmount_mount_handle offset SEEK_SET])
        ∧ ((w.mount_handle_seek_offset s.ext s.ewfmount_mount_handle offset SEEK_SET).1 ≠ -1 →
          (ewfmount_fuse_read w s path size offset file_info).2.trace
            = s.trace ++ [Call.mount_handle_seek_offset s.ewfmount_mount_handle offset SEEK_SET,
                          Call.mount_handle_read_buffer s.ewfmount_mount_handle size]
          ∧ (ewfmount_fuse_read w s path size offset file_info).2.ext
            = (w.mount_handle_read_buffer
                (w.mount_handle_seek_offset s.ext s.ewfmount_mount_handle offset SEEK_SET).2
                s.ewfmount_mount_handle size).2
          ∧ (ewfmount_fuse_read w s path size offset file_info).1
            = (if (w.mount_handle_read_buffer
                  (w.mount_handle_seek_offset s.ext s.ewfmount_mount_handle offset SEEK_SET).2
                  s.ewfmount_mount_handle size).1 = -1 then - EIO
               else int_cast (w.mount_handle_read_buffer
                  (w.mount_handle_seek_offset s.ext s.ewfmount_mount_handle offset SEEK_SET).2
                  s.ewfmount_mount_handle size).1)
          ∧ (size : Int) = min (size : Int) INT_MAX))
    ∧ ((ewfmount_fuse_read w s path size offset file_info).2.trace = s.trace
      ∨ (ewfmount_fuse_read w s path size offset file_info).2.trace
          = s.trace ++ [Call.mount_handle_seek_offset s.ewfmount_mount_handle offset SEEK_SET]
      ∨ ((ewfmount_fuse_read w s path size offset file_info).2.trace
          = s.trace ++ [Call.mount_handle_seek_offset s.ewfmount_mount_handle offset SEEK_SET,
                        Call.mount_handle_read_buffer s.ewfmount_mount_handle size]
        ∧ (size : Int) ≤ INT_MAX
        ∧ (size : Int) = min (size : Int) INT_MAX)) := by
  refine ⟨?_, ?_, ?_⟩
  · intro hgt
    cases path with
    | none => rfl
    | some p => simp only [ewfmount_fuse_read, hgt, if_true]
  · intro hp hfi hle
    subst hp
    obtain ⟨fi, hfi1⟩ := Option.ne_none_iff_exists'.mp hfi
    subst hfi1
    have hsz : ¬ (size : Int) > INT_MAX := not_lt.mpr hle
    have hmin : (size : Int) = min (size : Int) INT_MAX := (min_eq_left hle).symm
    refine ⟨fun hseek => ?_, fun hseek => ?_⟩
    · simp only [ewfmount_fuse_read, hsz, if_false, path_test_ewf1, hseek, State.after, if_true]
    · have a := fuse_read_after_seek w s size offset fi hle hseek
      refine ⟨a.2, ?_, a.1, hmin⟩
      simp only [ewfmount_fuse_read, hsz, if_false, path_test_ewf1, hseek, State.after]
      split_ifs <;> rfl
  · unfold ewfmount_fuse_read
    cases path with
    | none => exact Or.inl rfl
    | some p =>
      by_cases hgt : (size : Int) > INT_MAX
      · simp only [hgt, if_true, true_or]
      · have hle : (size : Int) ≤ INT_MAX := not_lt.mp hgt
        have hmin : (size : Int) = min (size : Int) INT_MAX := (min_eq_left hle).symm
        cases file_info with
        | none => simp only [hgt, if_false, true_or]
        | some fi =>
          simp only [hgt, if_false, State.after]
          split_ifs
          · exact Or.inl rfl
          · exact Or.inr (Or.inl rfl)
          · exact Or.inr (Or.inr ⟨by simp, hle, hmin⟩)
          · exact Or.inr (Or.inr ⟨by simp, hle, hmin⟩)

/-- C12 at a concrete request: INT_MAX bytes at offset 0 of a media of 2^32
bytes are asked of the engine as they are, after the seek. -/
theorem fuse_read_size_guard_witness :
    (ewfmount_fuse_read sample_world (sample_state (sample_ext (2 ^ 32)))
        (some ['/', 'e', 'w', 'f', '1']) 2147483647 0 (some ⟨0⟩)).2.trace
      = (sample_state (sample_ext (2 ^ 32))).trace
        ++ [Call.mount_handle_seek_offset
              (sample_state (sample_ext (2 ^ 32))).ewfmount_mount_handle 0 SEEK_SET,
            Call.mount_handle_read_buffer
              (sample_state (sample_ext (2 ^ 32))).ewfmount_mount_handle 2147483647] :=
  ((fuse_read_size_guard sample_world (sample_state (sample_ext (2 ^ 32)))
      (some ['/', 'e', 'w', 'f', '1']) 2147483647 0 (some ⟨0⟩)).2.1
    rfl (by decide) (by decide)).2 (by decide) |>.1

/-- C12 as stated fails: a request for 2^31 bytes (INT_MAX + 1) of "/ewf1" with
a non-NULL file_info is not served as a read of INT_MAX bytes: it returns
-EINVAL and no call reaches the mount handle. -/
theorem fuse_read_large_size_rejected :
    (ewfmount_fuse_read sample_world (sample_state (sample_ext (2 ^ 32)))
        (some ['/', 'e', 'w', 'f', '1']) (2 ^ 31) 0 (some ⟨0⟩)).1 = -EINVAL
    ∧ (ewfmount_fuse_read sample_world (sample_state (sample_ext (2 ^ 32)))
        (some ['/', 'e', 'w', 'f', '1']) (2 ^ 31) 0 (some ⟨0⟩)).2.trace = []
    ∧ Call.mount_handle_read_buffer (some 1) 2147483647
        ∉ (ewfmount_fuse_read sample_world (sample_state (sample_ext (2 ^ 32)))
            (some ['/', 'e', 'w', 'f', '1']) (2 ^ 31) 0 (some ⟨0⟩)).2.trace
    ∧ (ewfmount_fuse_read sample_world (sample_state (sample_ext (2 ^ 32)))
        (some ['/', 'e', 'w', 'f', '1']) 2147483647 0 (some ⟨0⟩)).1 = 2147483647 := by
  decide

end Ewfmount
